import Mathlib

/-!
# SteamPlusPlus: script lifecycle manager

A shallow embedding of `include/SteamPlusPlus.h` (namespace `spp`): the two
enumerations, the `SteamPlusPlus` class state (`m_initialized`, `m_scripts`)
and the container semantics of `std::unordered_map` that the registry relies
on.  The bodies of `runScript`, `killScript` and the destructor are not part of
the header; they are modelled from the design specification (section 4.4) on
top of the declared state.

The lifecycle model is parametric in the key type `K` of the registry and uses
the equality of `K` for lookups: `K = CharPtr` is the declaration in the
header (keys compared as addresses), `K = String` is a registry keyed by the
text of the identity.
-/

namespace spp

/-! ## Enumerations -/

/-- The two platform families selected by `#ifdef _WIN32`. -/
inductive Platform where
  | win32
  | other
  deriving DecidableEq, Repr

/-- The enumeration `PrintMode`. -/
inductive PrintMode where
  | kPrintNormal
  | kPrintError
  | kPrintBoring
  | kPrintInfo
  deriving DecidableEq, Repr

/-- Numeric value of a print mode; each enumerator carries one initializer per
branch of its `#ifdef _WIN32` / `#else` block. -/
def PrintMode.value (p : Platform) : PrintMode → Nat
  | .kPrintNormal => match p with
    | .win32 => 0xF
    | .other => 97
  | .kPrintError => match p with
    | .win32 => 0xC
    | .other => 91
  | .kPrintBoring => match p with
    | .win32 => 0x7
    | .other => 37
  | .kPrintInfo => match p with
    | .win32 => 0xE
    | .other => 93

/-- The enumeration `ErrorCodes`. -/
inductive ErrorCodes where
  | kE_OK
  | kE_Fail
  | kE_Uninitialized
  | kE_FileNotFound
  | kE_Memory
  | kE_Unknown
  deriving DecidableEq, Repr

/-- Numeric value of an error code: `kE_OK = 0` is explicit; each later
enumerator has no initializer, so its value is that of its predecessor plus
one. -/
def ErrorCodes.toInt : ErrorCodes → Int
  | .kE_OK => 0
  | .kE_Fail => 0 + 1
  | .kE_Uninitialized => 0 + 1 + 1
  | .kE_FileNotFound => 0 + 1 + 1 + 1
  | .kE_Memory => 0 + 1 + 1 + 1 + 1
  | .kE_Unknown => 0 + 1 + 1 + 1 + 1 + 1

/-- All enumerators of `ErrorCodes`, in declaration order. -/
def ErrorCodes.all : List ErrorCodes :=
  [.kE_OK, .kE_Fail, .kE_Uninitialized, .kE_FileNotFound, .kE_Memory, .kE_Unknown]

/-! ## Script identities and the registry container -/

/-- A C string as `runScript` / `killScript` receive it: the `const char*`
value is the address `addr`; `text` is the character content stored there. -/
structure CString where
  addr : Nat
  text : String
  deriving DecidableEq, Repr

/-- The key type written in the declaration of `m_scripts`: `const char*`.
Values of this type are addresses. -/
abbrev CharPtr := Nat

/-- The pointer value of a C string, which is what is stored as a key of type
`const char*`. -/
def CString.ptr (s : CString) : CharPtr := s.addr

/-- A handle standing for a `lua_State*`. -/
abbrev LuaState := Nat

/-- Contents of a `std::unordered_map<K, lua_State*>` with the default
`std::equal_to<K>`, listed in some iteration order. -/
abbrev Registry (K : Type) := List (K × LuaState)

namespace Registry

variable {K : Type} [DecidableEq K]

/-- The member `find`: the mapped value of the entry whose key equals `k`. -/
def find (k : K) : Registry K → Option LuaState
  | [] => none
  | (k', v) :: m => if k' = k then some v else find k m

/-- The member `insert`: adds the pair unless an entry with an equal key is
present; the flag tells whether the insertion took place. -/
def insert (k : K) (v : LuaState) (m : Registry K) : Registry K × Bool :=
  match find k m with
  | some _ => (m, false)
  | none => ((k, v) :: m, true)

/-- The member `erase(key)`: removes the entry whose key equals `k`, if any. -/
def erase (k : K) : Registry K → Registry K
  | [] => []
  | (k', v) :: m => if k' = k then m else (k', v) :: erase k m

/-- The keys of the registry. -/
def keys (m : Registry K) : List K := m.map Prod.fst

/-- The interpreter instances owned by the registry. -/
def instances (m : Registry K) : List LuaState := m.map Prod.snd

/-- The instances registered under the identity `k`. -/
def instancesOf (k : K) (m : Registry K) : List LuaState :=
  (m.filter (fun e => decide (e.1 = k))).map Prod.snd

end Registry

/-! ## Class state -/

/-- The data members of `class SteamPlusPlus`, over the key type `K` of
`m_scripts` (`CharPtr` in the header). -/
structure SteamPlusPlus (K : Type) where
  m_initialized : Bool
  m_scripts : Registry K
  deriving DecidableEq, Repr

/-- The implicitly defined default constructor: `m_initialized` takes its
default member initializer `= true`, `m_scripts` is default-constructed. -/
def SteamPlusPlus.default (K : Type) : SteamPlusPlus K := SteamPlusPlus.mk true []

/-! ## The interpreter runtime (external collaborator) -/

/-- The interpreter runtime seen at its boundary: the instances currently
live, the host-side hooks with the instance that registered each, and the next
unused handle. -/
structure LuaRuntime where
  live : List LuaState
  hooks : List (LuaState × Nat)
  fresh : LuaState
  deriving DecidableEq, Repr

/-- A runtime with no live instance and no hook. -/
def LuaRuntime.empty : LuaRuntime := LuaRuntime.mk [] [] 1

/-- Creation of a fresh interpreter instance. -/
def luaL_newstate (rt : LuaRuntime) : LuaState × LuaRuntime :=
  (rt.fresh, LuaRuntime.mk (rt.fresh :: rt.live) rt.hooks (rt.fresh + 1))

/-- Destruction of the interpreter instance `L`. -/
def lua_close (L : LuaState) (rt : LuaRuntime) : LuaRuntime :=
  LuaRuntime.mk (rt.live.erase L) rt.hooks rt.fresh

/-- Records the hooks `hs` as registered by the instance `L`. -/
def addHooks (L : LuaState) (hs : List Nat) (rt : LuaRuntime) : LuaRuntime :=
  LuaRuntime.mk rt.live (hs.map (fun i => (L, i)) ++ rt.hooks) rt.fresh

/-- Unwinds every host-side hook registered by the instance `L`. -/
def unhook (L : LuaState) (rt : LuaRuntime) : LuaRuntime :=
  LuaRuntime.mk rt.live (rt.hooks.filter (fun e => decide (e.1 ≠ L))) rt.fresh

/-- Outcome of compiling a script file. -/
inductive LoadStatus where
  | ok
  | errMem
  | errOther
  deriving DecidableEq, Repr

/-- What the external collaborators answer during one call of `runScript`:
whether the script file can be opened, the status of `createGlobals` on the
new instance, the outcome of compilation, and the outcome of executing the
unit with the argument vector (`none`: execution did not start; `some hs`: it
started and registered the hooks `hs`). -/
structure RunEnv where
  fileFound : Bool
  createGlobals : ErrorCodes
  compile : LoadStatus
  execute : Int → List String → Option (List Nat)

/-! ## The lifecycle manager -/

/-- A `SteamPlusPlus` object together with the interpreter runtime it drives. -/
structure Host (K : Type) where
  obj : SteamPlusPlus K
  lua : LuaRuntime
  deriving DecidableEq, Repr

/-- A default-constructed object over a runtime without instances. -/
def Host.init (K : Type) : Host K := Host.mk (SteamPlusPlus.default K) LuaRuntime.empty

variable {K : Type} [DecidableEq K]

/-- Destroys a partially-built instance on a failure path of `runScript`. -/
def discard (L : LuaState) (h : Host K) (rt : LuaRuntime) : Host K :=
  Host.mk h.obj (lua_close L (unhook L rt))

/-- Modelled from the spec: the body of `SteamPlusPlus::runScript`, which the
header only declares.  Section 4.4 `run`, steps 1 to 9: requires the host to
be initialized (else Uninitialized); opens the script (else FileNotFound);
creates a fresh instance; installs the globals and propagates a failure;
compiles (Memory on resource exhaustion, Fail otherwise); executes with the
argument vector; on successful start inserts (script, instance) into the
registry and returns OK; on any failure after creation destroys the instance.
A failed execution start is a generic failure (Fail); a registry insertion
rejected because the identity is present (section 4.3) is not mapped to a
code of its own and returns Unknown (step 9). -/
def runScript (env : RunEnv) (script : K) (argc : Int) (argv : List String)
    (h : Host K) : ErrorCodes × Host K :=
  if h.obj.m_initialized then
    if env.fileFound then
      let created := luaL_newstate h.lua
      let L := created.1
      let rt := created.2
      if env.createGlobals = ErrorCodes.kE_OK then
        match env.compile with
        | .errMem => (ErrorCodes.kE_Memory, discard L h rt)
        | .errOther => (ErrorCodes.kE_Fail, discard L h rt)
        | .ok =>
          match env.execute argc argv with
          | none => (ErrorCodes.kE_Fail, discard L h rt)
          | some hs =>
            match Registry.insert script L h.obj.m_scripts with
            | (m, true) =>
              (ErrorCodes.kE_OK,
                Host.mk (SteamPlusPlus.mk h.obj.m_initialized m) (addHooks L hs rt))
            | (_, false) => (ErrorCodes.kE_Unknown, discard L h (addHooks L hs rt))
      else (env.createGlobals, discard L h rt)
    else (ErrorCodes.kE_FileNotFound, h)
  else (ErrorCodes.kE_Uninitialized, h)

/-- The steps 3 and 4 of `kill` applied to the entry `(k, L)`: unwinds the
hooks of the instance, destroys it and removes the registry entry. -/
def release (k : K) (L : LuaState) (h : Host K) : Host K :=
  Host.mk (SteamPlusPlus.mk h.obj.m_initialized (Registry.erase k h.obj.m_scripts))
    (lua_close L (unhook L h.lua))

/-- Modelled from the spec: the body of `SteamPlusPlus::killScript`, which the
header only declares.  Section 4.4 `kill`, steps 1 to 5: requires the host to
be initialized (else Uninitialized); looks the identity up in the registry
(FileNotFound if absent); unwinds the hooks of the instance, then destroys the
instance and removes the registry entry; returns OK. -/
def killScript (script : K) (h : Host K) : ErrorCodes × Host K :=
  if h.obj.m_initialized then
    match Registry.find script h.obj.m_scripts with
    | none => (ErrorCodes.kE_FileNotFound, h)
    | some L => (ErrorCodes.kE_OK, release script L h)
  else (ErrorCodes.kE_Uninitialized, h)

/-- Releases, one after the other, the entries enumerated in the first
argument. -/
def teardown : Registry K → Host K → Host K
  | [], h => h
  | (k, L) :: m, h => teardown m (release k L h)

/-- Modelled from the spec: the body of `SteamPlusPlus::~SteamPlusPlus`, which
the header only declares.  Section 4.4 teardown: enumerates every remaining
registry entry and applies the same hook-teardown and destroy sequence as
`kill`. -/
def destructor (h : Host K) : Host K :=
  teardown h.obj.m_scripts h

/-- One call on the public interface of a live object. -/
inductive Call (K : Type) where
  | run (env : RunEnv) (script : K) (argc : Int) (argv : List String)
  | kill (script : K)

/-- Performs one call. -/
def Call.step (c : Call K) (h : Host K) : ErrorCodes × Host K :=
  match c with
  | .run env script argc argv => runScript env script argc argv h
  | .kill script => killScript script h

/-- Performs a sequence of calls, first to last. -/
def execCalls : List (Call K) → Host K → Host K
  | [], h => h
  | c :: cs, h => execCalls cs (c.step h).2

/-- The result codes of a sequence of calls, first to last. -/
def execCodes : List (Call K) → Host K → List ErrorCodes
  | [], _ => []
  | c :: cs, h => (c.step h).1 :: execCodes cs (c.step h).2

/-- The declared public members of `class SteamPlusPlus`. -/
inductive PublicMember (K : Type) where
  | dtor
  | runScript (env : RunEnv) (script : K) (argc : Int) (argv : List String)
  | killScript (script : K)

/-- The state after invoking a public member. -/
def PublicMember.apply (p : PublicMember K) (h : Host K) : Host K :=
  match p with
  | .dtor => destructor h
  | .runScript env script argc argv => (spp.runScript env script argc argv h).2
  | .killScript script => (spp.killScript script h).2

/-- An environment in which every collaborator succeeds and the script
registers the hooks `hs`. -/
def RunEnv.success (hs : List Nat) : RunEnv :=
  RunEnv.mk true ErrorCodes.kE_OK LoadStatus.ok (fun _ _ => some hs)

/-- The arguments of one `runScript` call together with the answers of the
collaborators during it. -/
structure RunArgs (K : Type) where
  env : RunEnv
  script : K
  argc : Int
  argv : List String

/-- The call that loads a script with the given arguments. -/
def RunArgs.call (a : RunArgs K) : Call K := Call.run a.env a.script a.argc a.argv

/-- Loading the script `k` without arguments, in an environment where every
collaborator succeeds and the script registers no hook. -/
def RunArgs.plain (k : K) : RunArgs K := RunArgs.mk (RunEnv.success []) k 0 []

/-- Ownership discipline between the registry and the runtime: registry keys
are pairwise distinct, the live instances are exactly the registered ones,
and live handles are pairwise distinct and older than the next fresh one. -/
def Host.Consistent (h : Host K) : Prop :=
  (Registry.keys h.obj.m_scripts).Nodup ∧
  List.Perm h.lua.live (Registry.instances h.obj.m_scripts) ∧
  h.lua.live.Nodup ∧
  ∀ L ∈ h.lua.live, L < h.lua.fresh

/-! ## Container lemmas -/

namespace Registry

variable {K : Type} [DecidableEq K]

theorem find_eq_none_iff (k : K) (m : Registry K) :
    find k m = none ↔ k ∉ keys m := by
  induction m with
  | nil => simp [find, keys]
  | cons e m ih =>
    obtain ⟨k', v⟩ := e
    by_cases hk : k' = k
    · simp [find, keys, hk]
    · have hk2 : ¬ k = k' := fun h => hk h.symm
      simpa [find, keys, hk, hk2] using ih

theorem find_some_mem {k : K} {m : Registry K} {L : LuaState}
    (h : find k m = some L) : (k, L) ∈ m := by
  induction m with
  | nil => simp [find] at h
  | cons e m ih =>
    obtain ⟨k', v⟩ := e
    by_cases hk : k' = k
    · simp [find, hk] at h
      simp [hk, h]
    · simp [find, hk] at h
      exact List.mem_cons_of_mem _ (ih h)

theorem insert_of_absent {k : K} {m : Registry K} (v : LuaState)
    (h : find k m = none) : insert k v m = ((k, v) :: m, true) := by
  simp [insert, h]

theorem insert_of_present {k : K} {m : Registry K} (v : LuaState) {L : LuaState}
    (h : find k m = some L) : insert k v m = (m, false) := by
  simp [insert, h]

theorem find_cons_self (k : K) (v : LuaState) (m : Registry K) :
    find k ((k, v) :: m) = some v := by
  simp [find]

theorem erase_cons_self (k : K) (v : LuaState) (m : Registry K) :
    erase k ((k, v) :: m) = m := by
  simp [erase]

theorem keys_erase_sublist (k : K) (m : Registry K) :
    List.Sublist (keys (erase k m)) (keys m) := by
  induction m with
  | nil => simp [erase, keys]
  | cons e m ih =>
    obtain ⟨k', v⟩ := e
    by_cases hk : k' = k
    · simp [erase, keys, hk]
    · simpa [erase, keys, hk] using ih

theorem instances_erase_perm {k : K} {m : Registry K} {L : LuaState}
    (h : find k m = some L) :
    List.Perm (instances (erase k m)) ((instances m).erase L) := by
  induction m with
  | nil => simp [find] at h
  | cons e m ih =>
    obtain ⟨k', v⟩ := e
    by_cases hk : k' = k
    · simp [find, hk] at h
      subst h
      simp [erase, instances, hk]
    · simp [find, hk] at h
      have hmem : L ∈ instances m := by
        have := find_some_mem h
        exact List.mem_map.2 ⟨(k, L), this, rfl⟩
      by_cases hv : v = L
      · subst hv
        have h1 : List.Perm (v :: (instances m).erase v) (instances m) :=
          (List.perm_cons_erase hmem).symm
        have h2 : List.Perm (v :: instances (erase k m)) (v :: (instances m).erase v) :=
          List.Perm.cons v (ih h)
        simpa [erase, instances, hk] using h2.trans h1
      · have h2 : List.Perm (v :: instances (erase k m)) (v :: (instances m).erase L) :=
          List.Perm.cons v (ih h)
        simpa [erase, instances, hk, hv] using h2

theorem length_instancesOf_le_one (k : K) {m : Registry K} (hn : (keys m).Nodup) :
    (instancesOf k m).length ≤ 1 := by
  induction m with
  | nil => simp [instancesOf]
  | cons e m ih =>
    obtain ⟨k', v⟩ := e
    have hn2 : k' ∉ keys m ∧ (keys m).Nodup := by simpa [keys] using hn
    by_cases hk : k' = k
    · subst hk
      have hnone : m.filter (fun e => decide (e.1 = k')) = [] := by
        rw [List.filter_eq_nil_iff]
        intro e he
        have : e.1 ∈ keys m := List.mem_map.2 ⟨e, he, rfl⟩
        have hne : e.1 ≠ k' := fun h => hn2.1 (h ▸ this)
        simpa using hne
      simp [instancesOf, hnone]
    · have := ih hn2.2
      simpa [instancesOf, hk] using this

end Registry

/-! ## Lifecycle lemmas -/

section Lifecycle

variable {K : Type} [DecidableEq K]

/-- A call of `runScript` that does not return `kE_OK` leaves the object and
the list of live instances as they were, and never lowers the fresh handle. -/
theorem runScript_failure (env : RunEnv) (script : K) (argc : Int) (argv : List String)
    (h : Host K) (hf : (runScript env script argc argv h).1 ≠ ErrorCodes.kE_OK) :
    (runScript env script argc argv h).2.obj = h.obj ∧
    (runScript env script argc argv h).2.lua.live = h.lua.live ∧
    h.lua.fresh ≤ (runScript env script argc argv h).2.lua.fresh := by
  unfold runScript at hf ⊢
  by_cases hi : h.obj.m_initialized = true
  · by_cases hfile : env.fileFound = true
    · by_cases hg : env.createGlobals = ErrorCodes.kE_OK
      · cases hc : env.compile with
        | errMem => simp [hi, hfile, hg, hc, discard, lua_close, unhook, luaL_newstate]
        | errOther => simp [hi, hfile, hg, hc, discard, lua_close, unhook, luaL_newstate]
        | ok =>
          cases he : env.execute argc argv with
          | none => simp [hi, hfile, hg, hc, he, discard, lua_close, unhook, luaL_newstate]
          | some hs =>
            cases hfind : Registry.find script h.obj.m_scripts with
            | none =>
              simp [hi, hfile, hg, hc, he, Registry.insert_of_absent _ hfind] at hf
            | some L0 =>
              simp [hi, hfile, hg, hc, he, Registry.insert_of_present _ hfind, discard,
                lua_close, unhook, luaL_newstate, addHooks]
      · simp [hi, hfile, hg, discard, lua_close, unhook, luaL_newstate]
    · simp [hi, hfile]
  · simp [hi]

/-- A call of `runScript` that returns `kE_OK` found the host initialized and
the identity absent, and registered a fresh instance under it. -/
theorem runScript_success (env : RunEnv) (script : K) (argc : Int) (argv : List String)
    (h : Host K) (hok : (runScript env script argc argv h).1 = ErrorCodes.kE_OK) :
    h.obj.m_initialized = true ∧
    Registry.find script h.obj.m_scripts = none ∧
    (runScript env script argc argv h).2.obj
      = SteamPlusPlus.mk true ((script, h.lua.fresh) :: h.obj.m_scripts) ∧
    (runScript env script argc argv h).2.lua.live = h.lua.fresh :: h.lua.live ∧
    (runScript env script argc argv h).2.lua.fresh = h.lua.fresh + 1 := by
  unfold runScript at hok ⊢
  by_cases hi : h.obj.m_initialized = true
  · by_cases hfile : env.fileFound = true
    · by_cases hg : env.createGlobals = ErrorCodes.kE_OK
      · cases hc : env.compile with
        | errMem => simp [hi, hfile, hg, hc] at hok
        | errOther => simp [hi, hfile, hg, hc] at hok
        | ok =>
          cases he : env.execute argc argv with
          | none => simp [hi, hfile, hg, hc, he] at hok
          | some hs =>
            cases hfind : Registry.find script h.obj.m_scripts with
            | none =>
              simp [hi, hfile, hg, hc, he, Registry.insert_of_absent _ hfind,
                luaL_newstate, addHooks]
            | some L0 =>
              simp [hi, hfile, hg, hc, he, Registry.insert_of_present _ hfind] at hok
      · simp [hi, hfile, hg] at hok
    · simp [hi, hfile] at hok
  · simp [hi] at hok

/-- With every collaborator succeeding and the identity absent, `runScript`
returns `kE_OK`. -/
theorem runScript_ok_of_absent (hs : List Nat) (script : K) (argc : Int) (argv : List String)
    (h : Host K) (hi : h.obj.m_initialized = true)
    (hfind : Registry.find script h.obj.m_scripts = none) :
    (runScript (RunEnv.success hs) script argc argv h).1 = ErrorCodes.kE_OK := by
  simp [runScript, RunEnv.success, hi, Registry.insert_of_absent _ hfind]

/-- With the identity already registered, `runScript` does not return
`kE_OK`. -/
theorem runScript_present (env : RunEnv) (script : K) (argc : Int) (argv : List String)
    (h : Host K) (hp : Registry.find script h.obj.m_scripts ≠ none) :
    (runScript env script argc argv h).1 ≠ ErrorCodes.kE_OK := by
  intro hok
  exact hp (runScript_success env script argc argv h hok).2.1

theorem killScript_absent (script : K) (h : Host K) (hi : h.obj.m_initialized = true)
    (hfind : Registry.find script h.obj.m_scripts = none) :
    killScript script h = (ErrorCodes.kE_FileNotFound, h) := by
  simp [killScript, hi, hfind]

theorem killScript_present (script : K) (h : Host K) (hi : h.obj.m_initialized = true)
    {L : LuaState} (hfind : Registry.find script h.obj.m_scripts = some L) :
    killScript script h = (ErrorCodes.kE_OK,
      Host.mk (SteamPlusPlus.mk true (Registry.erase script h.obj.m_scripts))
        (lua_close L (unhook L h.lua))) := by
  simp [killScript, release, hi, hfind]

theorem killScript_uninitialized (script : K) (h : Host K)
    (hu : h.obj.m_initialized = false) :
    killScript script h = (ErrorCodes.kE_Uninitialized, h) := by
  simp [killScript, hu]

theorem runScript_uninitialized (env : RunEnv) (script : K) (argc : Int)
    (argv : List String) (h : Host K) (hu : h.obj.m_initialized = false) :
    runScript env script argc argv h = (ErrorCodes.kE_Uninitialized, h) := by
  simp [runScript, hu]

end Lifecycle

/-! ## The ownership invariant -/

section Teardown

variable {K : Type}

theorem consistent_init : (Host.init K).Consistent := by
  simp [Host.Consistent, Host.init, SteamPlusPlus.default, LuaRuntime.empty,
    Registry.keys, Registry.instances]

end Teardown

section Invariant

variable {K : Type} [DecidableEq K]

theorem consistent_runScript (env : RunEnv) (script : K) (argc : Int) (argv : List String)
    (h : Host K) (hc : h.Consistent) : (runScript env script argc argv h).2.Consistent := by
  obtain ⟨hkeys, hperm, hnd, hlt⟩ := hc
  by_cases hok : (runScript env script argc argv h).1 = ErrorCodes.kE_OK
  · obtain ⟨_, hfind, hobj, hlive, hfresh⟩ := runScript_success env script argc argv h hok
    have habs : script ∉ Registry.keys h.obj.m_scripts :=
      (Registry.find_eq_none_iff script _).1 hfind
    have hnew : h.lua.fresh ∉ h.lua.live := fun hm => Nat.lt_irrefl _ (hlt _ hm)
    refine ⟨?_, ?_, ?_, ?_⟩
    · rw [hobj]
      simpa [Registry.keys] using And.intro habs hkeys
    · rw [hobj, hlive]
      simpa [Registry.instances] using hperm
    · rw [hlive]
      exact List.nodup_cons.2 ⟨hnew, hnd⟩
    · rw [hlive, hfresh]
      intro L hL
      rcases List.mem_cons.1 hL with h1 | h1
      · exact h1 ▸ Nat.lt_succ_self _
      · exact Nat.lt_succ_of_lt (hlt L h1)
  · obtain ⟨hobj, hlive, hfresh⟩ := runScript_failure env script argc argv h hok
    refine ⟨?_, ?_, ?_, ?_⟩
    · rw [hobj]
      exact hkeys
    · rw [hobj, hlive]
      exact hperm
    · rw [hlive]
      exact hnd
    · rw [hlive]
      intro L hL
      exact Nat.lt_of_lt_of_le (hlt L hL) hfresh

theorem consistent_killScript (script : K) (h : Host K) (hc : h.Consistent) :
    (killScript script h).2.Consistent := by
  obtain ⟨hkeys, hperm, hnd, hlt⟩ := hc
  by_cases hi : h.obj.m_initialized = true
  · cases hfind : Registry.find script h.obj.m_scripts with
    | none =>
      rw [killScript_absent script h hi hfind]
      exact ⟨hkeys, hperm, hnd, hlt⟩
    | some L =>
      rw [killScript_present script h hi hfind]
      refine ⟨?_, ?_, ?_, ?_⟩
      · exact List.Nodup.sublist (Registry.keys_erase_sublist script _) hkeys
      · have h1 : List.Perm (h.lua.live.erase L)
            ((Registry.instances h.obj.m_scripts).erase L) := List.Perm.erase L hperm
        exact h1.trans (Registry.instances_erase_perm hfind).symm
      · exact List.Nodup.erase L hnd
      · intro L1 hL1
        exact hlt L1 (List.mem_of_mem_erase hL1)
  · have hu : h.obj.m_initialized = false := by simpa using hi
    rw [killScript_uninitialized script h hu]
    exact ⟨hkeys, hperm, hnd, hlt⟩

theorem live_teardown (m : Registry K) (h : Host K)
    (hperm : List.Perm h.lua.live (Registry.instances m)) :
    (teardown m h).lua.live = [] := by
  induction m generalizing h with
  | nil => simpa [teardown, Registry.instances] using hperm
  | cons e m ih =>
    obtain ⟨k, L⟩ := e
    have h1 : List.Perm (h.lua.live.erase L) ((L :: Registry.instances m).erase L) :=
      List.Perm.erase L (by simpa [Registry.instances] using hperm)
    have h2 : List.Perm (release k L h).lua.live (Registry.instances m) := by
      simpa [release, lua_close, unhook] using h1
    simpa [teardown] using ih _ h2

theorem scripts_teardown (m : Registry K) (h : Host K) (hm : h.obj.m_scripts = m) :
    (teardown m h).obj.m_scripts = [] := by
  induction m generalizing h with
  | nil => simpa [teardown] using hm
  | cons e m ih =>
    obtain ⟨k, L⟩ := e
    have h2 : (release k L h).obj.m_scripts = m := by
      simp [release, hm, Registry.erase]
    simpa [teardown] using ih _ h2

theorem initialized_teardown (m : Registry K) (h : Host K) :
    (teardown m h).obj.m_initialized = h.obj.m_initialized := by
  induction m generalizing h with
  | nil => rfl
  | cons e m ih =>
    obtain ⟨k, L⟩ := e
    simpa [teardown, release] using ih (release k L h)

theorem consistent_step (c : Call K) (h : Host K) (hc : h.Consistent) :
    (c.step h).2.Consistent := by
  cases c with
  | run env script argc argv => exact consistent_runScript env script argc argv h hc
  | kill script => exact consistent_killScript script h hc

theorem consistent_execCalls (cs : List (Call K)) (h : Host K) (hc : h.Consistent) :
    (execCalls cs h).Consistent := by
  induction cs generalizing h with
  | nil => exact hc
  | cons c cs ih => exact ih _ (consistent_step c h hc)

end Invariant

section Loading

variable {K : Type} [DecidableEq K]

theorem sizes_after_loads (loads : List (RunArgs K)) (h : Host K)
    (hok : ∀ c ∈ execCodes (loads.map RunArgs.call) h, c = ErrorCodes.kE_OK) :
    (execCalls (loads.map RunArgs.call) h).obj.m_scripts.length
      = h.obj.m_scripts.length + loads.length ∧
    (execCalls (loads.map RunArgs.call) h).lua.live.length
      = h.lua.live.length + loads.length ∧
    Registry.keys (execCalls (loads.map RunArgs.call) h).obj.m_scripts
      = (loads.map RunArgs.script).reverse ++ Registry.keys h.obj.m_scripts := by
  induction loads generalizing h with
  | nil => simp [execCalls]
  | cons a loads ih =>
    have hfirst : (runScript a.env a.script a.argc a.argv h).1 = ErrorCodes.kE_OK :=
      hok _ (by simp [execCodes, RunArgs.call, Call.step])
    have hrest : ∀ c ∈ execCodes (loads.map RunArgs.call)
        (runScript a.env a.script a.argc a.argv h).2, c = ErrorCodes.kE_OK := by
      intro c hc
      exact hok c (by simp [execCodes, RunArgs.call, Call.step, hc])
    obtain ⟨_, _, hobj, hlive, _⟩ := runScript_success a.env a.script a.argc a.argv h hfirst
    obtain ⟨h1, h2, h3⟩ := ih _ hrest
    refine ⟨?_, ?_, ?_⟩
    · simp only [List.map_cons, execCalls, RunArgs.call, Call.step] at h1 ⊢
      rw [h1, hobj]
      simp only [List.length_cons]
      omega
    · simp only [List.map_cons, execCalls, RunArgs.call, Call.step] at h2 ⊢
      rw [h2, hlive]
      simp only [List.length_cons]
      omega
    · simp only [List.map_cons, execCalls, RunArgs.call, Call.step] at h3 ⊢
      rw [h3, hobj]
      simp [Registry.keys]

theorem loads_all_ok (ks : List K) (h : Host K) (hi : h.obj.m_initialized = true)
    (hd : ks.Nodup) (habs : ∀ k ∈ ks, Registry.find k h.obj.m_scripts = none) :
    ∀ c ∈ execCodes ((ks.map RunArgs.plain).map RunArgs.call) h, c = ErrorCodes.kE_OK := by
  induction ks generalizing h with
  | nil => simp [execCodes]
  | cons k ks ih =>
    have hk : k ∉ ks ∧ ks.Nodup := List.nodup_cons.1 hd
    have hfirst : (runScript (RunEnv.success []) k 0 [] h).1 = ErrorCodes.kE_OK :=
      runScript_ok_of_absent [] k 0 [] h hi (habs k (by simp))
    obtain ⟨_, _, hobj, _, _⟩ := runScript_success (RunEnv.success []) k 0 [] h hfirst
    have hrest := ih (runScript (RunEnv.success []) k 0 [] h).2 (by rw [hobj]) hk.2 (by
      intro k1 hk1
      rw [hobj]
      have hne : ¬ k = k1 := fun e => hk.1 (e ▸ hk1)
      simpa [Registry.find, hne] using habs k1 (by simp [hk1]))
    intro c hc
    simp only [List.map_cons, execCodes, RunArgs.call, RunArgs.plain, Call.step,
      List.mem_cons] at hc
    rcases hc with h1 | h1
    · rw [h1]
      exact hfirst
    · exact hrest c (by simpa [RunArgs.call, RunArgs.plain] using h1)

end Loading

/-! ## Enumeration properties -/

/-- C8: the enumeration `ErrorCodes` has exactly the six members `kE_OK`,
`kE_Fail`, `kE_Uninitialized`, `kE_FileNotFound`, `kE_Memory`, `kE_Unknown`;
their numeric values are pairwise distinct, `kE_OK` is 0 and the others are
1 to 5 in declaration order. -/
theorem errorCodes_six_distinct_values :
    (∀ e : ErrorCodes, e ∈ ErrorCodes.all) ∧
    ErrorCodes.all.Nodup ∧
    ErrorCodes.all.length = 6 ∧
    Function.Injective ErrorCodes.toInt ∧
    ErrorCodes.toInt ErrorCodes.kE_OK = 0 ∧
    ErrorCodes.all.map ErrorCodes.toInt = [0, 1, 2, 3, 4, 5] := by
  refine ⟨?_, by decide, rfl, ?_, rfl, by decide⟩
  · intro e
    cases e <;> decide
  · intro a b hab
    cases a <;> cases b <;> first | rfl | (exact absurd hab (by decide))

/-- C9: on each of the two platform families the map from the four print
modes to their attribute values is injective, with the values 0xF, 0xC, 0x7,
0xE on Windows and 97, 91, 37, 93 elsewhere. -/
theorem printMode_value_injective :
    (∀ p : Platform, Function.Injective (PrintMode.value p)) ∧
    [PrintMode.kPrintNormal, PrintMode.kPrintError, PrintMode.kPrintBoring,
      PrintMode.kPrintInfo].map (PrintMode.value Platform.win32) = [0xF, 0xC, 0x7, 0xE] ∧
    [PrintMode.kPrintNormal, PrintMode.kPrintError, PrintMode.kPrintBoring,
      PrintMode.kPrintInfo].map (PrintMode.value Platform.other) = [97, 91, 37, 93] := by
  refine ⟨?_, rfl, rfl⟩
  intro p a b hab
  cases p <;> cases a <;> cases b <;> first | rfl | (exact absurd hab (by decide))

/-! ## Registry keys -/

/-- C1, evaluated on the declared key type `const char*`: for the identity
text "a.script" held at the two addresses 4096 and 8192, an instance inserted
under the first is not found by a lookup with the second, and inserting under
the second while the first is present succeeds and leaves two entries. -/
theorem m_scripts_keyed_by_address :
    (CString.mk 4096 "a.script").text = (CString.mk 8192 "a.script").text ∧
    Registry.find (CString.mk 8192 "a.script").ptr
      (Registry.insert (CString.mk 4096 "a.script").ptr 1 []).1 = none ∧
    Registry.insert (CString.mk 8192 "a.script").ptr 2
      (Registry.insert (CString.mk 4096 "a.script").ptr 1 []).1
      = ([(8192, 2), (4096, 1)], true) := by
  refine ⟨rfl, ?_, ?_⟩ <;> decide

/-! ## Lifecycle properties -/

section Claims

variable {K : Type} [DecidableEq K]

/-- C10: a default-constructed `SteamPlusPlus` object has `m_initialized`
equal to true and an empty script registry, and no declared public member
(`runScript`, `killScript`, the destructor) changes the flag. -/
theorem default_object_is_initialized :
    (SteamPlusPlus.default K).m_initialized = true ∧
    (SteamPlusPlus.default K).m_scripts = [] ∧
    ∀ (p : PublicMember K) (h : Host K),
      (p.apply h).obj.m_initialized = h.obj.m_initialized := by
  refine ⟨rfl, rfl, ?_⟩
  intro p h
  cases p with
  | dtor => exact initialized_teardown _ h
  | runScript env script argc argv =>
    by_cases hok : (runScript env script argc argv h).1 = ErrorCodes.kE_OK
    · obtain ⟨hi, _, hobj, _, _⟩ := runScript_success env script argc argv h hok
      simp [PublicMember.apply, hobj, hi]
    · obtain ⟨hobj, _, _⟩ := runScript_failure env script argc argv h hok
      simp [PublicMember.apply, hobj]
  | killScript script =>
    by_cases hi : h.obj.m_initialized = true
    · cases hfind : Registry.find script h.obj.m_scripts with
      | none => simp [PublicMember.apply, killScript_absent script h hi hfind]
      | some L => simp [PublicMember.apply, killScript_present script h hi hfind, hi]
    · have hu : h.obj.m_initialized = false := by simpa using hi
      simp [PublicMember.apply, killScript_uninitialized script h hu]

/-- C6: when the initialized flag is false, `runScript` and `killScript` both
return `kE_Uninitialized` and leave the whole host state, registry and set of
interpreter instances included, as it was. -/
theorem uninitialized_gate (h : Host K) (hu : h.obj.m_initialized = false)
    (env : RunEnv) (script : K) (argc : Int) (argv : List String) (identity : K) :
    runScript env script argc argv h = (ErrorCodes.kE_Uninitialized, h) ∧
    killScript identity h = (ErrorCodes.kE_Uninitialized, h) :=
  ⟨runScript_uninitialized env script argc argv h hu, killScript_uninitialized identity h hu⟩

/-- Per key: on an initialized host, killing a key that the registry does
not hold returns `kE_FileNotFound` and leaves the host state unchanged. -/
theorem kill_absent_key_changes_nothing (h : Host K) (hi : h.obj.m_initialized = true)
    (b : K) (hb : b ∉ Registry.keys h.obj.m_scripts) :
    (killScript b h).1 = ErrorCodes.kE_FileNotFound ∧
    (killScript b h).2 = h ∧
    ∀ a : K, Registry.find a (killScript b h).2.obj.m_scripts
      = Registry.find a h.obj.m_scripts := by
  have hfind : Registry.find b h.obj.m_scripts = none :=
    (Registry.find_eq_none_iff b _).2 hb
  rw [killScript_absent b h hi hfind]
  exact ⟨rfl, rfl, fun _ => rfl⟩

/-- C5: a call of `runScript` that returns a code other than `kE_OK` leaves
the registry as it was and the number of live interpreter instances
unchanged (indeed the same instances are live). -/
theorem run_failure_no_leak (env : RunEnv) (script : K) (argc : Int) (argv : List String)
    (h : Host K) (hf : (runScript env script argc argv h).1 ≠ ErrorCodes.kE_OK) :
    (runScript env script argc argv h).2.obj.m_scripts = h.obj.m_scripts ∧
    (runScript env script argc argv h).2.lua.live.length = h.lua.live.length ∧
    (runScript env script argc argv h).2.lua.live = h.lua.live := by
  obtain ⟨hobj, hlive, _⟩ := runScript_failure env script argc argv h hf
  exact ⟨by rw [hobj], by rw [hlive], hlive⟩

/-- Per key: if `runScript` for the key `s` returns `kE_OK` (which it only
does on an initialized host), then the following `killScript` for `s` returns
`kE_OK`, after it the registry has no entry with key `s` and the live
instances are those from before the run, and a second `killScript` for `s`
returns `kE_FileNotFound`. -/
theorem kill_removes_key (h : Host K)
    (env : RunEnv) (s : K) (argc : Int) (argv : List String)
    (hrun : (runScript env s argc argv h).1 = ErrorCodes.kE_OK) :
    h.obj.m_initialized = true ∧
    (killScript s (runScript env s argc argv h).2).1 = ErrorCodes.kE_OK ∧
    Registry.find s (killScript s (runScript env s argc argv h).2).2.obj.m_scripts = none ∧
    s ∉ Registry.keys (killScript s (runScript env s argc argv h).2).2.obj.m_scripts ∧
    (killScript s (runScript env s argc argv h).2).2.lua.live = h.lua.live ∧
    (killScript s (killScript s (runScript env s argc argv h).2).2).1
      = ErrorCodes.kE_FileNotFound := by
  obtain ⟨hi, hfind, hobj, hlive, _⟩ := runScript_success env s argc argv h hrun
  have hi1 : (runScript env s argc argv h).2.obj.m_initialized = true := by rw [hobj]
  have hf1 : Registry.find s (runScript env s argc argv h).2.obj.m_scripts
      = some h.lua.fresh := by
    rw [hobj]
    exact Registry.find_cons_self s _ _
  have hk := killScript_present s _ hi1 hf1
  have hreg : (killScript s (runScript env s argc argv h).2).2.obj.m_scripts
      = h.obj.m_scripts := by
    rw [hk, hobj]
    exact Registry.erase_cons_self s _ _
  have hi2 : (killScript s (runScript env s argc argv h).2).2.obj.m_initialized = true := by
    rw [hk]
  have hf2 : Registry.find s (killScript s (runScript env s argc argv h).2).2.obj.m_scripts
      = none := by
    rw [hreg]
    exact hfind
  refine ⟨hi, by rw [hk], hf2, (Registry.find_eq_none_iff s _).1 hf2, ?_, ?_⟩
  · rw [hk]
    simp [lua_close, unhook, hlive]
  · rw [killScript_absent s _ hi2 hf2]

/-- Per key: in every state reached from a default-constructed object by a
sequence of `runScript` and `killScript` calls, each key has at most one
registered instance, the live instances are exactly the registered ones and
are pairwise distinct; and once `runScript` has returned `kE_OK` for a key, a
second `runScript` for that key fails and leaves registry and live instances
as they were. -/
theorem unique_instance_per_key (cs : List (Call K)) (h : Host K)
    (hr : h = execCalls cs (Host.init K)) :
    (∀ I : K, (Registry.instancesOf I h.obj.m_scripts).length ≤ 1) ∧
    (Registry.keys h.obj.m_scripts).Nodup ∧
    List.Perm h.lua.live (Registry.instances h.obj.m_scripts) ∧
    h.lua.live.Nodup ∧
    ∀ (env1 env2 : RunEnv) (I : K) (argc1 argc2 : Int) (argv1 argv2 : List String),
      (runScript env1 I argc1 argv1 h).1 = ErrorCodes.kE_OK →
      (runScript env2 I argc2 argv2 (runScript env1 I argc1 argv1 h).2).1
        ≠ ErrorCodes.kE_OK ∧
      (runScript env2 I argc2 argv2 (runScript env1 I argc1 argv1 h).2).2.obj.m_scripts
        = (runScript env1 I argc1 argv1 h).2.obj.m_scripts ∧
      (runScript env2 I argc2 argv2 (runScript env1 I argc1 argv1 h).2).2.lua.live
        = (runScript env1 I argc1 argv1 h).2.lua.live := by
  have hc : h.Consistent := by
    rw [hr]
    exact consistent_execCalls cs _ consistent_init
  obtain ⟨hkeys, hperm, hnd, _⟩ := hc
  refine ⟨fun I => Registry.length_instancesOf_le_one I hkeys, hkeys, hperm, hnd, ?_⟩
  intro env1 env2 I argc1 argc2 argv1 argv2 hok
  obtain ⟨_, _, hobj, _, _⟩ := runScript_success env1 I argc1 argv1 h hok
  have hp : Registry.find I (runScript env1 I argc1 argv1 h).2.obj.m_scripts ≠ none := by
    rw [hobj]
    simp [Registry.find]
  have hfail := runScript_present env2 I argc2 argv2 _ hp
  obtain ⟨h1, h2, _⟩ := runScript_failure env2 I argc2 argv2 _ hfail
  exact ⟨hfail, by rw [h1], h2⟩

/-- C7: when N identities have been loaded into a default-constructed object
with `runScript`, each call returning `kE_OK`, the identities are pairwise
distinct, the registry holds N entries and N instances are live; destroying
the object then leaves the registry empty and no interpreter instance live. -/
theorem teardown_complete (loads : List (RunArgs K))
    (hok : ∀ c ∈ execCodes (loads.map RunArgs.call) (Host.init K), c = ErrorCodes.kE_OK) :
    (loads.map RunArgs.script).Nodup ∧
    (execCalls (loads.map RunArgs.call) (Host.init K)).obj.m_scripts.length = loads.length ∧
    (execCalls (loads.map RunArgs.call) (Host.init K)).lua.live.length = loads.length ∧
    (destructor (execCalls (loads.map RunArgs.call) (Host.init K))).obj.m_scripts = [] ∧
    (destructor (execCalls (loads.map RunArgs.call) (Host.init K))).lua.live = [] := by
  obtain ⟨h1, h2, h3⟩ := sizes_after_loads loads (Host.init K) hok
  have hc : (execCalls (loads.map RunArgs.call) (Host.init K)).Consistent :=
    consistent_execCalls _ _ consistent_init
  refine ⟨?_, ?_, ?_, scripts_teardown _ _ rfl, ?_⟩
  · have hk := hc.1
    rw [h3] at hk
    have hk2 : (loads.map RunArgs.script).reverse.Nodup := by
      simpa [Host.init, SteamPlusPlus.default, Registry.keys] using hk
    exact List.nodup_reverse.1 hk2
  · simpa [Host.init, SteamPlusPlus.default] using h1
  · simpa [Host.init, LuaRuntime.empty] using h2
  · exact live_teardown _ _ hc.2.1

end Claims

/-! ## Concrete instances -/

/-- Instance of C6: an uninitialized host that holds one registry entry. -/
theorem uninitialized_gate_witness :
    (Host.mk (SteamPlusPlus.mk false [((4096 : CharPtr), 1)])
      (LuaRuntime.mk [1] [] 2)).obj.m_initialized = false ∧
    runScript (RunEnv.success []) (4096 : CharPtr) 1 [ "a.script" ]
        (Host.mk (SteamPlusPlus.mk false [((4096 : CharPtr), 1)]) (LuaRuntime.mk [1] [] 2))
      = (ErrorCodes.kE_Uninitialized,
        Host.mk (SteamPlusPlus.mk false [((4096 : CharPtr), 1)]) (LuaRuntime.mk [1] [] 2)) ∧
    killScript (4096 : CharPtr)
        (Host.mk (SteamPlusPlus.mk false [((4096 : CharPtr), 1)]) (LuaRuntime.mk [1] [] 2))
      = (ErrorCodes.kE_Uninitialized,
        Host.mk (SteamPlusPlus.mk false [((4096 : CharPtr), 1)]) (LuaRuntime.mk [1] [] 2)) :=
  ⟨rfl, uninitialized_gate
    (Host.mk (SteamPlusPlus.mk false [((4096 : CharPtr), 1)]) (LuaRuntime.mk [1] [] 2)) rfl
    (RunEnv.success []) 4096 1 [ "a.script" ] 4096⟩

/-- Instance of C5: compilation runs out of memory after the instance was created. -/
theorem run_failure_no_leak_witness :
    (runScript (RunEnv.mk true ErrorCodes.kE_OK LoadStatus.errMem (fun _ _ => some []))
      (8192 : CharPtr) 1 [ "b.script" ]
      (Host.mk (SteamPlusPlus.mk true [((4096 : CharPtr), 1)]) (LuaRuntime.mk [1] [] 2))).1
      = ErrorCodes.kE_Memory ∧
    (runScript (RunEnv.mk true ErrorCodes.kE_OK LoadStatus.errMem (fun _ _ => some []))
      (8192 : CharPtr) 1 [ "b.script" ]
      (Host.mk (SteamPlusPlus.mk true [((4096 : CharPtr), 1)])
        (LuaRuntime.mk [1] [] 2))).2.obj.m_scripts = [((4096 : CharPtr), 1)] ∧
    (runScript (RunEnv.mk true ErrorCodes.kE_OK LoadStatus.errMem (fun _ _ => some []))
      (8192 : CharPtr) 1 [ "b.script" ]
      (Host.mk (SteamPlusPlus.mk true [((4096 : CharPtr), 1)])
        (LuaRuntime.mk [1] [] 2))).2.lua.live.length = 1 :=
  ⟨by decide,
    (run_failure_no_leak
      (RunEnv.mk true ErrorCodes.kE_OK LoadStatus.errMem (fun _ _ => some []))
      (8192 : CharPtr) 1 [ "b.script" ]
      (Host.mk (SteamPlusPlus.mk true [((4096 : CharPtr), 1)]) (LuaRuntime.mk [1] [] 2))
      (by decide)).1,
    (run_failure_no_leak
      (RunEnv.mk true ErrorCodes.kE_OK LoadStatus.errMem (fun _ _ => some []))
      (8192 : CharPtr) 1 [ "b.script" ]
      (Host.mk (SteamPlusPlus.mk true [((4096 : CharPtr), 1)]) (LuaRuntime.mk [1] [] 2))
      (by decide)).2.1⟩

/-- Instance of C7: three distinct identities loaded, then the object destroyed. -/
theorem teardown_complete_witness :
    (∀ c ∈ execCodes
        ([RunArgs.plain (4096 : CharPtr), RunArgs.plain 8192, RunArgs.plain 12288].map
          RunArgs.call) (Host.init CharPtr), c = ErrorCodes.kE_OK) ∧
    (execCalls
        ([RunArgs.plain (4096 : CharPtr), RunArgs.plain 8192, RunArgs.plain 12288].map
          RunArgs.call) (Host.init CharPtr)).obj.m_scripts.length = 3 ∧
    (destructor (execCalls
        ([RunArgs.plain (4096 : CharPtr), RunArgs.plain 8192, RunArgs.plain 12288].map
          RunArgs.call) (Host.init CharPtr))).obj.m_scripts = [] ∧
    (destructor (execCalls
        ([RunArgs.plain (4096 : CharPtr), RunArgs.plain 8192, RunArgs.plain 12288].map
          RunArgs.call) (Host.init CharPtr))).lua.live = [] :=
  ⟨by decide,
    (teardown_complete [RunArgs.plain (4096 : CharPtr), RunArgs.plain 8192, RunArgs.plain 12288]
      (by decide)).2.1,
    (teardown_complete [RunArgs.plain (4096 : CharPtr), RunArgs.plain 8192, RunArgs.plain 12288]
      (by decide)).2.2.2.1,
    (teardown_complete [RunArgs.plain (4096 : CharPtr), RunArgs.plain 8192, RunArgs.plain 12288]
      (by decide)).2.2.2.2⟩

/-! ## One identity held at several addresses

The lifecycle at the key type declared in the header, `const char*`: the
registry sees the address of the identity string, not its text. -/

end spp
